import Mathlib

/-!
Verification of the tstools MPEG-2 transport-stream toolkit.

This file gives a shallow embedding, in Lean 4, of the parts of the
tstools source that the specification's claims are about:

* `src/crc32.rs` — the MPEG-2 CRC-32 (polynomial 0x04c11db7, init
  0xffffffff, MSB first, no final xor);
* `src/ts/packet.rs` — 188-byte transport-stream packet decoding;
* `src/psi/buffer.rs` — the per-PID PSI section reassembler;
* `src/cmd/clean.rs` — keep-set derivation and the PAT rewriter;
* `src/psi/eit.rs` — EIT start-time (MJD + BCD) decoding;
* `src/cmd/jitter.rs` — the audio/video PTS jitter computation;
* `src/arib/string.rs` — the ARIB control-sequence handler;
* `src/cmd/caption.rs` — the caption data-unit dispatcher.

Bytes are modelled as `Nat` (values below 256 wherever the Rust type is
`u8`); fixed-width machine arithmetic is modelled with explicit masks
and `% 2^w` reductions.  Rust functions that can panic (slice indexing
out of bounds, `unreachable!`) are modelled with an explicit `panic`
outcome in the result type.
-/

namespace Tstools

set_option maxRecDepth 8000

/-! ## CRC-32 (src/crc32.rs)

The table construction iterates eight shift-xor steps on `i << 24`,
and `crc32` folds the table over the data with initial value
0xffffffff. -/

/-- One step of the CRC-32 table generation: shift left by one (as u32)
and xor the polynomial 0x04c11db7 when the top bit was set. -/
def crc32Step (crc : Nat) : Nat :=
  if crc &&& 0x80000000 ≠ 0 then ((crc * 2) % 2 ^ 32) ^^^ 0x04c11db7
  else (crc * 2) % 2 ^ 32

/-- Entry `i` of the CRC-32 table: eight `crc32Step`s applied to
`(i as u32) << 24` (the index is a `u8` in the Rust source). -/
def crc32TableEntry (i : Nat) : Nat :=
  crc32Step^[8] ((i % 256) * 2 ^ 24)

/-- One step of the CRC-32 fold: index the table with
`((crc >> 24) as u8) ^ x` and xor with `crc << 8` (as u32). -/
def crc32Fold (crc x : Nat) : Nat :=
  crc32TableEntry (((crc / 2 ^ 24) ^^^ x) % 256) ^^^ ((crc * 2 ^ 8) % 2 ^ 32)

/-- MPEG-2 CRC-32 of a byte sequence, as computed by `crc32::crc32`. -/
def crc32 (data : List Nat) : Nat :=
  data.foldl crc32Fold 0xffffffff

/-! ## TS packets (src/ts/packet.rs) -/

/-- Decoded transport-stream packet (struct `TSPacket`). The
`adaptation_field` holds the raw length-prefixed adaptation bytes and
`data` the payload slice; `raw` is the whole 188-byte frame. -/
structure TSPacket where
  transport_error_indicator : Bool
  payload_unit_start_indicator : Bool
  transport_priority : Bool
  pid : Nat
  transport_scrambling_control : Nat
  adaptation_field_control : Nat
  continuity_counter : Nat
  adaptation_field : Option (List Nat)
  data : Option (List Nat)
  raw : List Nat
deriving DecidableEq

/-- Result of `TSPacketDecoder::decode`: `needMore` models `Ok(None)`
(fewer than 188 buffered bytes), `fail` models the two `bail!`/error
returns (bad sync byte, adaptation-field length overflow), and
`packet` models `Ok(Some(..))` together with the bytes left in the
source buffer. -/
inductive TSDecodeResult where
  | needMore
  | fail
  | packet (p : TSPacket) (rest : List Nat)
deriving DecidableEq

/-- Decoder for one TS packet, mirroring `TSPacketDecoder::decode`:
check the buffer holds 188 bytes and starts with the 0x47 sync byte,
split off the frame, extract the header fields, and (unless the
transport-error flag is set) slice the adaptation field and payload
according to `adaptation_field_control`. -/
def tsDecode (src : List Nat) : TSDecodeResult :=
  if src.length < 188 then .needMore
  else if src.getD 0 0 ≠ 0x47 then .fail
  else
    let frame := src.take 188
    let rest := src.drop 188
    let tei := frame.getD 1 0 &&& 0x80 ≠ 0
    let pusi := frame.getD 1 0 &&& 0x40 ≠ 0
    let tp := frame.getD 1 0 &&& 0x20 ≠ 0
    let pid := ((frame.getD 1 0 &&& 0x1f) <<< 8) ||| frame.getD 2 0
    let tsc := frame.getD 3 0 >>> 6
    let afc := (frame.getD 3 0 &&& 0x30) >>> 4
    let cc := frame.getD 3 0 &&& 0xf
    if tei then
      .packet ⟨tei, pusi, tp, pid, tsc, afc, cc, none, none, frame⟩ rest
    else
      let afLen := frame.getD 4 0
      if afc = 0b10 ∨ afc = 0b11 then
        if 184 < afLen + 1 then .fail
        else
          let af := (frame.drop 4).take (afLen + 1)
          let data := if afc = 0b11 then some (frame.drop (4 + (afLen + 1))) else none
          .packet ⟨tei, pusi, tp, pid, tsc, afc, cc, some af, data, frame⟩ rest
      else
        let data := if afc = 0b01 then some (frame.drop 4) else none
        .packet ⟨tei, pusi, tp, pid, tsc, afc, cc, none, data, frame⟩ rest

/-! ## PSI section reassembly (src/psi/buffer.rs) -/

/-- Reassembly state of `psi::Buffer` (enum `State`). The source names
the three states `Initial`, `Partial` and `Full`; `partialFill` stands
for `Partial`. -/
inductive BufSt where
  | initial
  | partialFill
  | full
deriving DecidableEq

/-- Mutable fields of `psi::Buffer` (the stream it wraps is passed
separately as a packet list). -/
structure PsiBuffer where
  state : BufSt
  counter : Nat
  buf : List Nat
deriving DecidableEq

/-- Errors of the PSI reassembler (enum `BufferError`). -/
inductive BufferError where
  | malformedNoData
  | malformedNoSectionHeader
  | discontinued
deriving DecidableEq

/-- Outcome of `Buffer::feed_packet`: either the updated buffer, an
error (the Rust method mutates `self` before returning `Err`, so the
error case also carries the updated buffer), or a panic.  The panic
case models the out-of-bounds index `bytes[0]` that the source
performs on an empty payload slice before any length check. -/
inductive FeedResult where
  | ok (b : PsiBuffer)
  | err (e : BufferError) (b : PsiBuffer)
  | panic
deriving DecidableEq

/-- Model of `Buffer::feed_packet`.  On a unit-start packet the first
payload byte is the pointer field (indexing it panics on an empty
payload), the buffer restarts past it and the counter is recorded; on
a continuation packet the continuity counter is checked: identical
counter means duplicate (ignored), incremented-mod-16 counter appends
the payload, anything else resets the state to `Initial` and reports
a discontinuity. -/
def feedPacket (b : PsiBuffer) (p : TSPacket) : FeedResult :=
  match p.data with
  | none => .err .malformedNoData b
  | some bytes =>
    if p.payload_unit_start_indicator then
      if bytes = [] then .panic
      else if bytes.length < bytes.getD 0 0 + 1 then .err .malformedNoSectionHeader b
      else .ok ⟨.partialFill, p.continuity_counter, bytes.drop (bytes.getD 0 0 + 1)⟩
    else
      if b.counter = p.continuity_counter then .ok b
      else if (b.counter + 1) % 16 = p.continuity_counter then
        .ok ⟨b.state, p.continuity_counter, b.buf ++ bytes⟩
      else
        .err .discontinued ⟨.initial, b.counter, b.buf⟩

/-- Section length of a buffered PSI header: the 12-bit field
`(buf[1] & 0xf) << 8 | buf[2]`. -/
def sectionLength (buf : List Nat) : Nat :=
  ((buf.getD 1 0 &&& 0xf) <<< 8) ||| buf.getD 2 0

/-- Outcome of one `Buffer::poll_next` call on a finite packet list:
`ended` models the upstream returning `None`, `emit` a completed
section (with the buffer afterwards and the unconsumed packets),
`err` an error item, and `panic` a panic inside `feed_packet`. -/
inductive PollResult where
  | ended
  | emit (sec : List Nat) (b : PsiBuffer) (rest : List TSPacket)
  | err (e : BufferError) (b : PsiBuffer) (rest : List TSPacket)
  | panic
deriving DecidableEq

/-- Model of `Buffer::poll_next`, driving the state machine over a
list of input packets until a section is emitted, an error or panic
occurs, or the input ends.  Packets with `transport_error_indicator`
are skipped.  In `Initial`, non-unit-start packets are discarded; in
`Partial` the buffer is grown until it holds a complete section
(`3 + section_length` bytes); `Full` (also reached directly when the
buffer is already complete) splits the section off and returns to
`Partial`. -/
def pollNext (b : PsiBuffer) (input : List TSPacket) : PollResult :=
  match b.state with
  | .full =>
    let n := sectionLength b.buf + 3
    .emit (b.buf.take n) ⟨.partialFill, b.counter, b.buf.drop n⟩ input
  | .initial =>
    match input with
    | [] => .ended
    | p :: rest =>
      if p.transport_error_indicator then pollNext b rest
      else if p.payload_unit_start_indicator then
        match feedPacket b p with
        | .ok b' => pollNext b' rest
        | .err e b' => .err e b' rest
        | .panic => .panic
      else pollNext b rest
  | .partialFill =>
    if 3 ≤ b.buf.length ∧ sectionLength b.buf + 3 ≤ b.buf.length then
      let n := sectionLength b.buf + 3
      .emit (b.buf.take n) ⟨.partialFill, b.counter, b.buf.drop n⟩ input
    else
      match input with
      | [] => .ended
      | p :: rest =>
        if p.transport_error_indicator then pollNext b rest
        else
          match feedPacket b p with
          | .ok b' => pollNext b' rest
          | .err e b' => .err e b' rest
          | .panic => .panic

/-- Well-formedness of a reassembly buffer: the transient `Full` state
only ever holds a complete section.  Externally reachable states are
`Initial` and `Partial`, for which this is vacuous. -/
def BufWF (b : PsiBuffer) : Prop :=
  b.state = .full → 3 ≤ b.buf.length ∧ sectionLength b.buf + 3 ≤ b.buf.length

instance (b : PsiBuffer) : Decidable (BufWF b) := by
  unfold BufWF; infer_instance

theorem bufWF_of_ne_full (b : PsiBuffer) (h : b.state ≠ .full) : BufWF b :=
  fun hf => absurd hf h

theorem sectionLength_take (l : List Nat) (n : Nat) (h3 : 3 ≤ n) :
    sectionLength (l.take n) = sectionLength l := by
  have h1 : 1 < n := by omega
  have h2 : 2 < n := by omega
  simp [sectionLength, List.getD_eq_getElem?_getD, List.getElem?_take, h1, h2]

theorem feedPacket_ok_state (b : PsiBuffer) (p : TSPacket) (b' : PsiBuffer)
    (h : feedPacket b p = .ok b') : b'.state = b.state ∨ b'.state = .partialFill := by
  unfold feedPacket at h
  cases hd : p.data with
  | none => rw [hd] at h; exact absurd h (by simp)
  | some bytes =>
    rw [hd] at h
    by_cases hp : p.payload_unit_start_indicator
    · simp only [hp, if_true] at h
      by_cases he : bytes = []
      · rw [if_pos he] at h; exact absurd h (by simp)
      · rw [if_neg he] at h
        by_cases hl : bytes.length < bytes.getD 0 0 + 1
        · rw [if_pos hl] at h; exact absurd h (by simp)
        · rw [if_neg hl] at h
          cases h; right; rfl
    · simp only [hp, if_false] at h
      by_cases h1 : b.counter = p.continuity_counter
      · rw [if_pos h1] at h; cases h; left; rfl
      · rw [if_neg h1] at h
        by_cases h2 : (b.counter + 1) % 16 = p.continuity_counter
        · rw [if_pos h2] at h; cases h; left; rfl
        · rw [if_neg h2] at h; exact absurd h (by simp)

theorem feedPacket_pusi_ok_indep (p : TSPacket) (b b' b2 : PsiBuffer)
    (hp : p.payload_unit_start_indicator = true)
    (h : feedPacket b p = .ok b2) : feedPacket b' p = .ok b2 := by
  unfold feedPacket at h ⊢
  cases hd : p.data with
  | none => rw [hd] at h; exact absurd h (by simp)
  | some bytes =>
    rw [hd] at h
    simp only [hp, if_true] at h ⊢
    by_cases he : bytes = []
    · rw [if_pos he] at h; exact absurd h (by simp)
    · rw [if_neg he] at h ⊢
      by_cases hl : bytes.length < bytes.getD 0 0 + 1
      · rw [if_pos hl] at h; exact absurd h (by simp)
      · rw [if_neg hl] at h ⊢; exact h

theorem pollNext_emit_spec :
    ∀ (input : List TSPacket) (b : PsiBuffer), BufWF b →
      ∀ sec b' rest, pollNext b input = .emit sec b' rest →
        sec.length = 3 + sectionLength sec ∧ b'.state = .partialFill := by
  intro input
  induction input with
  | nil =>
    intro b hwf sec b' rest h
    obtain ⟨st, cnt, buf⟩ := b
    cases st with
    | initial => exact absurd h (by simp [pollNext])
    | full =>
      obtain ⟨h3, hn⟩ := hwf rfl
      simp only [pollNext] at h
      cases h
      constructor
      · rw [sectionLength_take _ _ (by omega), List.length_take]
        simp only [sectionLength] at hn ⊢
        omega
      · rfl
    | partialFill =>
      simp only [pollNext] at h
      by_cases hc : 3 ≤ buf.length ∧ sectionLength buf + 3 ≤ buf.length
      · rw [if_pos hc] at h
        cases h
        constructor
        · rw [sectionLength_take _ _ (by omega), List.length_take]
          simp only [sectionLength] at hc ⊢
          omega
        · rfl
      · rw [if_neg hc] at h; exact absurd h (by simp)
  | cons p rest ih =>
    intro b hwf sec b' rest' h
    obtain ⟨st, cnt, buf⟩ := b
    cases st with
    | full =>
      obtain ⟨h3, hn⟩ := hwf rfl
      simp only [pollNext] at h
      cases h
      constructor
      · rw [sectionLength_take _ _ (by omega), List.length_take]
        simp only [sectionLength] at hn ⊢
        omega
      · rfl
    | initial =>
      simp only [pollNext] at h
      by_cases htei : p.transport_error_indicator
      · rw [if_pos htei] at h
        exact ih _ (bufWF_of_ne_full _ (by simp)) _ _ _ h
      · rw [if_neg htei] at h
        by_cases hpusi : p.payload_unit_start_indicator
        · rw [if_pos hpusi] at h
          cases hfp : feedPacket ⟨.initial, cnt, buf⟩ p with
          | ok b2 =>
            rw [hfp] at h
            have hst := feedPacket_ok_state _ _ _ hfp
            refine ih _ (bufWF_of_ne_full _ ?_) _ _ _ h
            rcases hst with h' | h' <;> simp [h']
          | err e b2 => rw [hfp] at h; exact absurd h (by simp)
          | panic => rw [hfp] at h; exact absurd h (by simp)
        · rw [if_neg hpusi] at h
          exact ih _ (bufWF_of_ne_full _ (by simp)) _ _ _ h
    | partialFill =>
      simp only [pollNext] at h
      by_cases hc : 3 ≤ buf.length ∧ sectionLength buf + 3 ≤ buf.length
      · rw [if_pos hc] at h
        cases h
        constructor
        · rw [sectionLength_take _ _ (by omega), List.length_take]
          simp only [sectionLength] at hc ⊢
          omega
        · rfl
      · rw [if_neg hc] at h
        by_cases htei : p.transport_error_indicator
        · rw [if_pos htei] at h
          exact ih _ (bufWF_of_ne_full _ (by simp)) _ _ _ h
        · rw [if_neg htei] at h
          cases hfp : feedPacket ⟨.partialFill, cnt, buf⟩ p with
          | ok b2 =>
            rw [hfp] at h
            have hst := feedPacket_ok_state _ _ _ hfp
            refine ih _ (bufWF_of_ne_full _ ?_) _ _ _ h
            rcases hst with h' | h' <;> simp [h']
          | err e b2 => rw [hfp] at h; exact absurd h (by simp)
          | panic => rw [hfp] at h; exact absurd h (by simp)

/-- C2: every section emitted by the PSI section reassembler has
length exactly `3 + section_length` where `section_length` is the
12-bit field at bytes 1–2 of the emitted section, and the state
returns to `Partial`; moreover, when the buffer in `Partial` state
already holds a complete section, exactly its first
`3 + section_length` bytes are emitted and the remaining buffered
bytes are retained (so a second section concatenated in the same
buffering window is emitted next), with the input untouched. -/
theorem c2_section_emission :
    (∀ (input : List TSPacket) (b : PsiBuffer), BufWF b →
      ∀ sec b' rest, pollNext b input = .emit sec b' rest →
        sec.length = 3 + sectionLength sec ∧ b'.state = .partialFill) ∧
    (∀ (b : PsiBuffer) (input : List TSPacket), b.state = .partialFill →
      3 ≤ b.buf.length → sectionLength b.buf + 3 ≤ b.buf.length →
      pollNext b input = .emit (b.buf.take (sectionLength b.buf + 3))
        ⟨.partialFill, b.counter, b.buf.drop (sectionLength b.buf + 3)⟩ input) := by
  constructor
  · exact pollNext_emit_spec
  · intro b input hst h3 hn
    obtain ⟨st, cnt, buf⟩ := b
    cases hst
    cases input with
    | nil => simp only [pollNext]; rw [if_pos ⟨h3, hn⟩]
    | cons p rest => simp only [pollNext]; rw [if_pos ⟨h3, hn⟩]

/-- Concrete demonstration of C2: a `Partial` buffer holding two
concatenated sections (lengths 5 and 4) emits the first section,
whose declared length matches, retains the second in the buffer, and
then emits the second from the retained bytes alone. -/
theorem c2_section_emission_witness :
    (([0, 0, 2, 10, 11] : List Nat).length = 3 + sectionLength [0, 0, 2, 10, 11] ∧
      (⟨.partialFill, 0, [0, 0, 1, 12]⟩ : PsiBuffer).state = .partialFill) ∧
    pollNext ⟨.partialFill, 0, [0, 0, 2, 10, 11, 0, 0, 1, 12]⟩ [] =
      .emit [0, 0, 2, 10, 11] ⟨.partialFill, 0, [0, 0, 1, 12]⟩ [] ∧
    pollNext ⟨.partialFill, 0, [0, 0, 1, 12]⟩ [] =
      .emit [0, 0, 1, 12] ⟨.partialFill, 0, []⟩ [] :=
  ⟨c2_section_emission.1 [] ⟨.partialFill, 0, [0, 0, 2, 10, 11, 0, 0, 1, 12]⟩ (by decide)
      [0, 0, 2, 10, 11] ⟨.partialFill, 0, [0, 0, 1, 12]⟩ [] (by decide),
    by decide, by decide⟩

theorem pollNext_initial_emit_indep :
    ∀ (input : List TSPacket) (c : Nat) (buf sec : List Nat) (b' : PsiBuffer)
      (rest : List TSPacket),
      pollNext ⟨.initial, c, buf⟩ input = .emit sec b' rest →
      pollNext ⟨.initial, c, []⟩ input = .emit sec b' rest := by
  intro input
  induction input with
  | nil => intro c buf sec b' rest h; exact absurd h (by simp [pollNext])
  | cons p rest ih =>
    intro c buf sec b' rest' h
    simp only [pollNext] at h ⊢
    by_cases htei : p.transport_error_indicator
    · rw [if_pos htei] at h ⊢
      exact ih _ _ _ _ _ h
    · rw [if_neg htei] at h ⊢
      by_cases hpusi : p.payload_unit_start_indicator
      · rw [if_pos hpusi] at h ⊢
        cases hres : feedPacket ⟨.initial, c, buf⟩ p with
        | ok b2 =>
          rw [hres] at h
          rw [feedPacket_pusi_ok_indep p _ _ _ hpusi hres]
          exact h
        | err e b2 => rw [hres] at h; exact absurd h (by simp)
        | panic => rw [hres] at h; exact absurd h (by simp)
      · rw [if_neg hpusi] at h ⊢
        exact ih _ _ _ _ _ h

/-- C3: while the reassembler is in `Partial` state, a packet without
`payload_unit_start` carrying payload `d` is handled by continuity
counter: an identical counter leaves the buffer untouched (duplicate),
the successor counter mod 16 updates the counter and appends the
payload, and any other value returns the `Discontinued` error with
the state reset to `Initial` — after which any section emission is
independent of the stale buffered bytes (they are never emitted). -/
theorem c3_partial_continuity (b : PsiBuffer) (p : TSPacket) (d : List Nat)
    (hst : b.state = .partialFill)
    (hp : p.payload_unit_start_indicator = false)
    (hd : p.data = some d) :
    (p.continuity_counter = b.counter → feedPacket b p = .ok b) ∧
    (p.continuity_counter ≠ b.counter →
      (b.counter + 1) % 16 = p.continuity_counter →
      feedPacket b p = .ok ⟨.partialFill, p.continuity_counter, b.buf ++ d⟩) ∧
    (p.continuity_counter ≠ b.counter →
      (b.counter + 1) % 16 ≠ p.continuity_counter →
      feedPacket b p = .err .discontinued ⟨.initial, b.counter, b.buf⟩ ∧
      ∀ input sec b2 rest,
        pollNext ⟨.initial, b.counter, b.buf⟩ input = .emit sec b2 rest →
        pollNext ⟨.initial, b.counter, []⟩ input = .emit sec b2 rest) := by
  refine ⟨?_, ?_, ?_⟩
  · intro hc
    unfold feedPacket
    rw [hd]
    simp [hp, hc.symm]
  · intro hne hc
    unfold feedPacket
    rw [hd]
    simp only [hp, Bool.false_eq_true, if_false]
    rw [if_neg (fun h => hne h.symm), if_pos hc, hst]
  · intro hne hc
    constructor
    · unfold feedPacket
      rw [hd]
      simp only [hp, Bool.false_eq_true, if_false]
      rw [if_neg (fun h => hne h.symm), if_neg hc]
    · intro input sec b2 rest h
      exact pollNext_initial_emit_indep input b.counter b.buf sec b2 rest h

/-- Concrete demonstration of C3: from a `Partial` buffer with counter
5 and bytes `[1, 2, 3]`, a continuation packet with counter 6 and
payload `[9]` appends the payload and advances the counter. -/
theorem c3_partial_continuity_witness :
    feedPacket ⟨.partialFill, 5, [1, 2, 3]⟩
        ⟨false, false, false, 0x100, 0, 1, 6, none, some [9], []⟩ =
      .ok ⟨.partialFill, 6, [1, 2, 3, 9]⟩ :=
  (c3_partial_continuity ⟨.partialFill, 5, [1, 2, 3]⟩
      ⟨false, false, false, 0x100, 0, 1, 6, none, some [9], []⟩ [9]
      rfl rfl rfl).2.1 (by decide) (by decide)

/-- Transport-stream frame whose adaptation field occupies all 184
remaining bytes: sync byte, `payload_unit_start` set, PID 0,
`adaptation_field_control = 0b11`, adaptation length 183. -/
def zeroPayloadFrame : List Nat :=
  0x47 :: 0x40 :: 0x00 :: 0x30 :: 0xb7 :: List.replicate 183 0

/-- Decoded form of `zeroPayloadFrame`: a unit-start packet whose
payload slice is empty. -/
def zeroPayloadPacket : TSPacket :=
  ⟨false, true, false, 0, 0, 3, 0, some (0xb7 :: List.replicate 183 0), some [], zeroPayloadFrame⟩

/-- C10: the TS packet decoder produces, from a 188-byte frame with
`payload_unit_start_indicator` set, `adaptation_field_control = 0b11`
and an adaptation field filling the rest of the packet, a packet with
an empty payload slice; feeding it to the PSI section reassembler
panics (the pointer-field read `bytes[0]` happens before any length
check) instead of returning an error value. -/
theorem c10_zero_payload_panic :
    tsDecode zeroPayloadFrame = .packet zeroPayloadPacket [] ∧
    zeroPayloadPacket.payload_unit_start_indicator = true ∧
    zeroPayloadPacket.data = some [] ∧
    feedPacket ⟨.initial, 0, []⟩ zeroPayloadPacket = .panic ∧
    pollNext ⟨.initial, 0, []⟩ [zeroPayloadPacket] = .panic := by
  refine ⟨by decide, rfl, rfl, rfl, by decide⟩

/-! ## Clean: PAT rewriting (src/cmd/clean.rs, `dump_pat`) -/

/-- Program number of a 4-byte PAT map entry:
`(map[0] << 8) | map[1]`. -/
def entryProgramNumber (e : List Nat) : Nat :=
  (e.getD 0 0 <<< 8) ||| e.getD 1 0

/-- PID of a 4-byte PAT map entry: `((map[2] & 0x1f) << 8) | map[3]`. -/
def entryPid (e : List Nat) : Nat :=
  ((e.getD 2 0 &&& 0x1f) <<< 8) ||| e.getD 3 0

/-- Loop body of `dump_pat` over the program-map bytes: walk the map
four bytes at a time and keep the entries whose program number is 0 or
whose PID is in the keep-set.  The source indexes `map[0..4]`, which
panics when 0 < len < 4; the PAT parser guarantees the map length is a
multiple of four, so that case (modelled as stopping) is unreachable
under the well-formedness hypotheses used below. -/
def keepEntries (pids : Finset Nat) : List Nat → List Nat
  | b0 :: b1 :: b2 :: b3 :: rest =>
    if entryProgramNumber [b0, b1, b2, b3] = 0 ∨ entryPid [b0, b1, b2, b3] ∈ pids then
      b0 :: b1 :: b2 :: b3 :: keepEntries pids rest
    else keepEntries pids rest
  | _ => []

/-- Decomposition of the program-map bytes into 4-byte entries. -/
def patEntries : List Nat → List (List Nat)
  | b0 :: b1 :: b2 :: b3 :: rest => [b0, b1, b2, b3] :: patEntries rest
  | _ => []

/-- Keep predicate of the PAT rewrite: a program entry survives iff
its program number is 0 (network PID) or its PID is in the
keep-set. -/
def keepEntryP (pids : Finset Nat) (e : List Nat) : Prop :=
  entryProgramNumber e = 0 ∨ entryPid e ∈ pids

instance (pids : Finset Nat) (e : List Nat) : Decidable (keepEntryP pids e) := by
  unfold keepEntryP; infer_instance

/-- Offset of the PAT section inside the 188-byte frame, honoring the
adaptation-field offset (`4 + 1 + bytes[4]` when an adaptation field
is present) and the pointer field (`data[0]`), as computed by
`dump_pat`. -/
def patOffset (bytes : List Nat) : Nat :=
  let afc := (bytes.getD 3 0 &&& 0x30) >>> 4
  let dataOffset := if afc = 0b10 ∨ afc = 0b11 then 4 + 1 + bytes.getD 4 0 else 4
  dataOffset + 1 + bytes.getD dataOffset 0

/-- Big-endian byte serialization of a 32-bit CRC
(`crc.to_be_bytes()`). -/
def crcBeBytes (crc : Nat) : List Nat :=
  [(crc >>> 24) % 256, (crc >>> 16) % 256, (crc >>> 8) % 256, crc % 256]

/-- Program-map byte slice of the PAT packet, `&pat[8..3 + section_length - 4]`. -/
def patMapBytes (bytes : List Nat) : List Nat :=
  let pat := bytes.drop (patOffset bytes)
  (pat.drop 8).take (3 + sectionLength pat - 4 - 8)

/-- Rewritten PAT header: the original bytes up to and including byte
8 of the section (`out.extend_from_slice(&bytes[..pat_offset + 8])`),
with the 12-bit section-length field overwritten in place
(`out[pat_offset + 1] &= 0xf0; out[pat_offset + 1] |= (nsl >> 8) as
u8; out[pat_offset + 2] = nsl as u8`). -/
def dumpPatHeader (bytes : List Nat) (nsl : Nat) : List Nat :=
  let p := patOffset bytes
  let out0 := bytes.take (p + 8)
  (out0.set (p + 1) ((out0.getD (p + 1) 0 &&& 0xf0) ||| ((nsl >>> 8) % 256))).set
    (p + 2) (nsl % 256)

/-- Model of `dump_pat`: rebuild a 188-byte PAT packet keeping only
the program entries selected by `keepEntries` with
`new_section_length = 5 + new_map_bytes + 4`, append the MPEG-2
CRC-32 of the output bytes from the PAT offset up to
`pat_offset + 3 + new_section_length - 4`, and pad with zeros to 188
bytes (`BytesMut::resize`).  Patching the length field before
appending the kept entries is order-independent because the patched
indices lie inside the copied header. -/
def dumpPat (bytes : List Nat) (pids : Finset Nat) : List Nat :=
  let p := patOffset bytes
  let kept := keepEntries pids (patMapBytes bytes)
  let newSectionLength := 5 + kept.length + 4
  let out3 := dumpPatHeader bytes newSectionLength ++ kept
  let crc := crc32 ((out3.drop p).take (3 + newSectionLength - 4))
  let out4 := out3 ++ crcBeBytes crc
  out4.take 188 ++ List.replicate (188 - out4.length) 0

theorem keepEntries_eq_filter (pids : Finset Nat) (m : List Nat) :
    keepEntries pids m =
      ((patEntries m).filter fun e => decide (keepEntryP pids e)).flatten := by
  induction m using patEntries.induct with
  | case1 b0 b1 b2 b3 rest ih =>
    rw [keepEntries, patEntries]
    by_cases hk : entryProgramNumber [b0, b1, b2, b3] = 0 ∨ entryPid [b0, b1, b2, b3] ∈ pids
    · rw [if_pos hk, List.filter_cons_of_pos (by simpa [keepEntryP] using hk),
        List.flatten_cons, ih]
      rfl
    · rw [if_neg hk, List.filter_cons_of_neg (by simpa [keepEntryP] using hk), ih]
  | case2 m h =>
    match m, h with
    | [], _ => rfl
    | [a], _ => rfl
    | [a, b], _ => rfl
    | [a, b, c], _ => rfl
    | b0 :: b1 :: b2 :: b3 :: rest, h => exact (h b0 b1 b2 b3 rest rfl).elim

theorem patEntries_length_four (m : List Nat) :
    ∀ e ∈ patEntries m, e.length = 4 := by
  induction m using patEntries.induct with
  | case1 b0 b1 b2 b3 rest ih =>
    rw [patEntries]
    intro e he
    rcases List.mem_cons.1 he with h | h
    · subst h; rfl
    · exact ih e h
  | case2 m h =>
    match m, h with
    | [], _ => intro e he; cases he
    | [a], _ => intro e he; cases he
    | [a, b], _ => intro e he; cases he
    | [a, b, c], _ => intro e he; cases he
    | b0 :: b1 :: b2 :: b3 :: rest, h => exact (h b0 b1 b2 b3 rest rfl).elim

theorem keepEntries_length (pids : Finset Nat) (m : List Nat) :
    (keepEntries pids m).length =
      4 * ((patEntries m).filter fun e => decide (keepEntryP pids e)).length := by
  rw [keepEntries_eq_filter, List.length_flatten]
  have h4 : ∀ e ∈ (patEntries m).filter fun e => decide (keepEntryP pids e), e.length = 4 :=
    fun e he => patEntries_length_four m e (List.mem_of_mem_filter he)
  rw [List.map_congr_left h4]
  simp [List.map_const', mul_comm]

theorem patEntries_length_le (m : List Nat) : 4 * (patEntries m).length ≤ m.length := by
  induction m using patEntries.induct with
  | case1 b0 b1 b2 b3 rest ih => rw [patEntries]; simp only [List.length_cons]; omega
  | case2 m h =>
    match m, h with
    | [], _ => simp [patEntries]
    | [a], _ => simp [patEntries]
    | [a, b], _ => simp [patEntries]
    | [a, b, c], _ => simp [patEntries]
    | b0 :: b1 :: b2 :: b3 :: rest, h => exact (h b0 b1 b2 b3 rest rfl).elim

theorem byte_nib_shl_lor : ∀ a < 16, ∀ b < 256, (a <<< 8) ||| b = a * 256 + b := by decide

theorem byte_lor_land_xf : ∀ a < 256, ∀ c < 16, ((a &&& 0xf0) ||| c) &&& 0xf = c := by decide

theorem byte_lor_land_xf0 : ∀ a < 256, ∀ c < 16,
    ((a &&& 0xf0) ||| c) &&& 0xf0 = a &&& 0xf0 := by decide

theorem getD_lt_256 (l : List Nat) (hl : ∀ b ∈ l, b < 256) (i : Nat) : l.getD i 0 < 256 := by
  by_cases hi : i < l.length
  · rw [List.getD_eq_getElem l 0 hi]
    exact hl _ (List.getElem_mem hi)
  · rw [List.getD_eq_default l 0 (Nat.le_of_not_lt hi)]
    omega

theorem sectionLength_eq_arith (buf : List Nat) (h2 : buf.getD 2 0 < 256) :
    sectionLength buf = (buf.getD 1 0 &&& 0xf) * 256 + buf.getD 2 0 :=
  byte_nib_shl_lor _ (Nat.lt_of_le_of_lt Nat.and_le_right (by norm_num)) _ h2

theorem sectionLength_lt (buf : List Nat) (h2 : buf.getD 2 0 < 256) :
    sectionLength buf < 4096 := by
  rw [sectionLength_eq_arith buf h2]
  have := Nat.and_le_right (n := buf.getD 1 0) (m := 0xf)
  omega

theorem dumpPatHeader_length (bytes : List Nat) (nsl : Nat)
    (h : patOffset bytes + 8 ≤ bytes.length) :
    (dumpPatHeader bytes nsl).length = patOffset bytes + 8 := by
  simp only [dumpPatHeader, List.length_set, List.length_take]
  omega

theorem dumpPatHeader_getD_ne (bytes : List Nat) (nsl i : Nat)
    (h1 : i ≠ patOffset bytes + 1) (h2 : i ≠ patOffset bytes + 2)
    (hlt : i < patOffset bytes + 8) :
    (dumpPatHeader bytes nsl).getD i 0 = bytes.getD i 0 := by
  have ht : (List.take (patOffset bytes + 8) bytes)[i]? = bytes[i]? := by
    rw [List.getElem?_take, if_pos hlt]
  simp only [dumpPatHeader, List.getD_eq_getElem?_getD]
  rw [List.getElem?_set_ne (Ne.symm h2), List.getElem?_set_ne (Ne.symm h1), ht]

theorem dumpPatHeader_getD_p1 (bytes : List Nat) (nsl : Nat)
    (h : patOffset bytes + 8 ≤ bytes.length) :
    (dumpPatHeader bytes nsl).getD (patOffset bytes + 1) 0 =
      (bytes.getD (patOffset bytes + 1) 0 &&& 0xf0) ||| ((nsl >>> 8) % 256) := by
  have hlen : patOffset bytes + 1 < (bytes.take (patOffset bytes + 8)).length := by
    rw [List.length_take]; omega
  have ht : (List.take (patOffset bytes + 8) bytes)[patOffset bytes + 1]? =
      bytes[patOffset bytes + 1]? := by
    rw [List.getElem?_take, if_pos (by omega)]
  simp only [dumpPatHeader, List.getD_eq_getElem?_getD]
  rw [List.getElem?_set_ne (show patOffset bytes + 2 ≠ patOffset bytes + 1 by omega),
    List.getElem?_set_self hlen, Option.getD_some, ht]

theorem dumpPatHeader_getD_p2 (bytes : List Nat) (nsl : Nat)
    (h : patOffset bytes + 8 ≤ bytes.length) :
    (dumpPatHeader bytes nsl).getD (patOffset bytes + 2) 0 = nsl % 256 := by
  simp only [dumpPatHeader, List.getD_eq_getElem?_getD]
  rw [List.getElem?_set_self (by simp only [List.length_set, List.length_take]; omega)]
  rfl

theorem crcBeBytes_length (c : Nat) : (crcBeBytes c).length = 4 := rfl

/-- C1: the PAT rewrite of the clean operation.  For a 188-byte PAT
packet (`bytes`, all entries byte-valued) whose section is well
formed — it fits in the packet, its section length is at least 9, and
its program map is a whole number of 4-byte entries — and for any
keep-set `pids`, the output of `dump_pat`: has exactly 188 bytes;
preserves every original byte up through byte 8 of the section except
the two section-length bytes, whose 4 header bits are preserved;
carries the 12-bit section-length value `5 + 4·n + 4` where `n` is
the number of kept entries; enumerates, right after the section
header, exactly those original 4-byte entries whose program number is
0 or whose PID is in the keep-set; follows them with the big-endian
MPEG-2 CRC-32 computed over the output bytes from `pat_offset` to
`pat_offset + 3 + new_section_length - 4` (exclusive); and zero-pads
the rest. -/
theorem c1_pat_rewrite (bytes : List Nat) (pids : Finset Nat) (p L n : Nat)
    (map out : List Nat)
    (hp : p = patOffset bytes)
    (hL : L = sectionLength (bytes.drop p))
    (hmap : map = patMapBytes bytes)
    (hn : n = ((patEntries map).filter fun e => decide (keepEntryP pids e)).length)
    (hout : out = dumpPat bytes pids)
    (hlen : bytes.length = 188)
    (hbytes : ∀ b ∈ bytes, b < 256)
    (hL9 : 9 ≤ L)
    (hfit : p + 3 + L ≤ 188)
    (hmul : (L - 9) % 4 = 0) :
    out.length = 188 ∧
    (∀ i, i < p + 8 → i ≠ p + 1 → i ≠ p + 2 → out.getD i 0 = bytes.getD i 0) ∧
    sectionLength (out.drop p) = 5 + 4 * n + 4 ∧
    out.getD (p + 1) 0 &&& 0xf0 = bytes.getD (p + 1) 0 &&& 0xf0 ∧
    (out.drop (p + 8)).take (4 * n) =
      ((patEntries map).filter fun e => decide (keepEntryP pids e)).flatten ∧
    (out.drop (p + 8 + 4 * n)).take 4 =
      crcBeBytes (crc32 ((out.drop p).take (3 + (5 + 4 * n + 4) - 4))) ∧
    out.drop (p + 8 + 4 * n + 4) = List.replicate (188 - (p + 8 + 4 * n + 4)) 0 := by
  have hp8 : p + 8 ≤ 188 := by omega
  have hplen : patOffset bytes + 8 ≤ bytes.length := by rw [← hp, hlen]; omega
  have hbd : ∀ b ∈ bytes.drop p, b < 256 := fun b hb => hbytes b (List.mem_of_mem_drop hb)
  have hL4096 : L < 4096 := by rw [hL]; exact sectionLength_lt _ (getD_lt_256 _ hbd 2)
  have hmaplen : map.length = L - 9 := by
    rw [hmap]
    simp only [patMapBytes]
    rw [← hp, ← hL, List.length_take, List.length_drop, List.length_drop, hlen]
    omega
  have hkl : (keepEntries pids map).length = 4 * n := by rw [keepEntries_length, ← hn]
  have hn4 : 4 * n ≤ L - 9 := by
    calc 4 * n ≤ 4 * (patEntries map).length := by
          rw [hn]; exact Nat.mul_le_mul_left 4 (List.length_filter_le _ _)
      _ ≤ map.length := patEntries_length_le map
      _ = L - 9 := hmaplen
  have hnsl : 5 + 4 * n + 4 < 4096 := by omega
  have hAlen : (dumpPatHeader bytes (5 + 4 * n + 4)).length = p + 8 := by
    rw [dumpPatHeader_length bytes _ hplen, ← hp]
  have hout4 : out = dumpPatHeader bytes (5 + 4 * n + 4) ++
      (keepEntries pids map ++
        (crcBeBytes (crc32 ((dumpPatHeader bytes (5 + 4 * n + 4)).drop p ++
            keepEntries pids map)) ++
          List.replicate (188 - (p + 8 + 4 * n + 4)) 0)) := by
    rw [hout]
    simp only [dumpPat]
    rw [← hp, ← hmap, hkl]
    have hdp : (dumpPatHeader bytes (5 + 4 * n + 4) ++ keepEntries pids map).drop p =
        (dumpPatHeader bytes (5 + 4 * n + 4)).drop p ++ keepEntries pids map :=
      List.drop_append_of_le_length (by omega)
    have hdplen : ((dumpPatHeader bytes (5 + 4 * n + 4)).drop p ++
        keepEntries pids map).length = 8 + 4 * n := by
      rw [List.length_append, List.length_drop, hAlen, hkl]; omega
    rw [hdp]
    have htake1 : ((dumpPatHeader bytes (5 + 4 * n + 4)).drop p ++
        keepEntries pids map).take (3 + (5 + 4 * n + 4) - 4) =
        (dumpPatHeader bytes (5 + 4 * n + 4)).drop p ++ keepEntries pids map :=
      List.take_of_length_le (by rw [hdplen]; omega)
    rw [htake1]
    have hlen4 : ((dumpPatHeader bytes (5 + 4 * n + 4) ++ keepEntries pids map) ++
        crcBeBytes (crc32 ((dumpPatHeader bytes (5 + 4 * n + 4)).drop p ++
          keepEntries pids map))).length = p + 8 + 4 * n + 4 := by
      rw [List.length_append, List.length_append, hAlen, hkl, crcBeBytes_length]
    have htake2 : ((dumpPatHeader bytes (5 + 4 * n + 4) ++ keepEntries pids map) ++
        crcBeBytes (crc32 ((dumpPatHeader bytes (5 + 4 * n + 4)).drop p ++
          keepEntries pids map))).take 188 =
        (dumpPatHeader bytes (5 + 4 * n + 4) ++ keepEntries pids map) ++
        crcBeBytes (crc32 ((dumpPatHeader bytes (5 + 4 * n + 4)).drop p ++
          keepEntries pids map)) :=
      List.take_of_length_le (by rw [hlen4]; omega)
    rw [htake2, hlen4, List.append_assoc, List.append_assoc]
  have houtlen : out.length = 188 := by
    rw [hout4]
    simp only [List.length_append, List.length_replicate, hAlen, hkl, crcBeBytes_length]
    omega
  have hgetA : ∀ i, i < p + 8 →
      out.getD i 0 = (dumpPatHeader bytes (5 + 4 * n + 4)).getD i 0 := by
    intro i hi
    rw [hout4, List.getD_eq_getElem?_getD, List.getD_eq_getElem?_getD,
      List.getElem?_append, if_pos (by rw [hAlen]; omega)]
  have hB1 : bytes.getD (p + 1) 0 < 256 := getD_lt_256 _ hbytes _
  have hc16 : (5 + 4 * n + 4) >>> 8 % 256 < 16 := by
    rw [Nat.shiftRight_eq_div_pow]
    omega
  have hcval : (5 + 4 * n + 4) >>> 8 % 256 = (5 + 4 * n + 4) / 256 := by
    rw [Nat.shiftRight_eq_div_pow]
    omega
  have hv1 : out.getD (p + 1) 0 =
      (bytes.getD (p + 1) 0 &&& 0xf0) ||| ((5 + 4 * n + 4) >>> 8 % 256) := by
    rw [hgetA (p + 1) (by omega), hp, dumpPatHeader_getD_p1 bytes _ hplen, ← hp]
  have hv2 : out.getD (p + 2) 0 = (5 + 4 * n + 4) % 256 := by
    rw [hgetA (p + 2) (by omega), hp, dumpPatHeader_getD_p2 bytes _ hplen]
  have hdropP : out.drop (p + 8) =
      keepEntries pids map ++
        (crcBeBytes (crc32 ((dumpPatHeader bytes (5 + 4 * n + 4)).drop p ++
            keepEntries pids map)) ++
          List.replicate (188 - (p + 8 + 4 * n + 4)) 0) := by
    rw [hout4, List.drop_append_of_le_length (by omega),
      List.drop_eq_nil_of_le (by rw [hAlen]), List.nil_append]
  refine ⟨houtlen, ?_, ?_, ?_, ?_, ?_, ?_⟩
  · intro i hi h1 h2
    rw [hgetA i hi]
    exact dumpPatHeader_getD_ne bytes _ i (by rw [← hp]; exact h1) (by rw [← hp]; exact h2)
      (by rw [← hp]; omega)
  · have hg1 : (out.drop p).getD 1 0 = out.getD (p + 1) 0 := by
      rw [List.getD_eq_getElem?_getD, List.getD_eq_getElem?_getD, List.getElem?_drop]
    have hg2 : (out.drop p).getD 2 0 = out.getD (p + 2) 0 := by
      rw [List.getD_eq_getElem?_getD, List.getD_eq_getElem?_getD, List.getElem?_drop]
    rw [sectionLength, hg1, hg2, hv1, hv2,
      byte_lor_land_xf _ hB1 _ hc16,
      byte_nib_shl_lor _ hc16 _ (Nat.mod_lt _ (by norm_num)), hcval]
    omega
  · rw [hv1, byte_lor_land_xf0 _ hB1 _ hc16]
  · rw [hdropP, List.take_append_of_le_length (by rw [hkl]),
      List.take_of_length_le (by rw [hkl]), keepEntries_eq_filter]
  · have hdrop2 : out.drop (p + 8 + 4 * n) =
        crcBeBytes (crc32 ((dumpPatHeader bytes (5 + 4 * n + 4)).drop p ++
            keepEntries pids map)) ++
          List.replicate (188 - (p + 8 + 4 * n + 4)) 0 := by
      have : out.drop (p + 8 + 4 * n) = (out.drop (p + 8)).drop (4 * n) := by
        rw [List.drop_drop]
      rw [this, hdropP, List.drop_append_of_le_length (by rw [hkl]),
        List.drop_eq_nil_of_le (by rw [hkl]), List.nil_append]
    have hcrcarg : (out.drop p).take (3 + (5 + 4 * n + 4) - 4) =
        (dumpPatHeader bytes (5 + 4 * n + 4)).drop p ++ keepEntries pids map := by
      have hadp : ((dumpPatHeader bytes (5 + 4 * n + 4)).drop p).length = 8 := by
        rw [List.length_drop, hAlen]; omega
      have h1 : out.drop p = (dumpPatHeader bytes (5 + 4 * n + 4)).drop p ++
          (keepEntries pids map ++
            (crcBeBytes (crc32 ((dumpPatHeader bytes (5 + 4 * n + 4)).drop p ++
                keepEntries pids map)) ++
              List.replicate (188 - (p + 8 + 4 * n + 4)) 0)) := by
        rw [hout4, List.drop_append_of_le_length (by rw [hAlen]; omega)]
      rw [h1]
      have h2 : 3 + (5 + 4 * n + 4) - 4 =
          ((dumpPatHeader bytes (5 + 4 * n + 4)).drop p).length + 4 * n := by
        rw [hadp]; omega
      rw [h2, List.take_append, List.take_append_of_le_length (by rw [hkl]),
        List.take_of_length_le (by rw [hkl])]
    rw [hdrop2, hcrcarg, List.take_append_of_le_length (by rw [crcBeBytes_length]),
      List.take_of_length_le (by rw [crcBeBytes_length])]
  · have : out.drop (p + 8 + 4 * n + 4) = (out.drop (p + 8 + 4 * n)).drop 4 := by
      rw [List.drop_drop]
    rw [this]
    have hdrop2 : out.drop (p + 8 + 4 * n) =
        crcBeBytes (crc32 ((dumpPatHeader bytes (5 + 4 * n + 4)).drop p ++
            keepEntries pids map)) ++
          List.replicate (188 - (p + 8 + 4 * n + 4)) 0 := by
      have h3 : out.drop (p + 8 + 4 * n) = (out.drop (p + 8)).drop (4 * n) := by
        rw [List.drop_drop]
      rw [h3, hdropP, List.drop_append_of_le_length (by rw [hkl]),
        List.drop_eq_nil_of_le (by rw [hkl]), List.nil_append]
    rw [hdrop2, List.drop_append_of_le_length (by rw [crcBeBytes_length]),
      List.drop_eq_nil_of_le (by rw [crcBeBytes_length]), List.nil_append]

/-- Demonstration PAT packet: unit-start, payload-only, pointer field
0, section length 21 with three program entries — the network entry
(0, 0x0010), (0x0101, 0x01f0) and (0x0102, 0x02f0) — an arbitrary CRC
trailer, and 0xff stuffing. -/
def demoPatBytes : List Nat :=
  [0x47, 0x40, 0x00, 0x10, 0x00,
   0x00, 0xb0, 0x15, 0x00, 0x01, 0xc1, 0x00, 0x00,
   0x00, 0x00, 0xe0, 0x10,
   0x01, 0x01, 0xe1, 0xf0,
   0x01, 0x02, 0xe2, 0xf0,
   0xde, 0xad, 0xbe, 0xef] ++ List.replicate 159 0xff

/-- Program-map bytes of `demoPatBytes`. -/
def demoMap : List Nat :=
  [0x00, 0x00, 0xe0, 0x10, 0x01, 0x01, 0xe1, 0xf0, 0x01, 0x02, 0xe2, 0xf0]

/-- Keep-set retaining only the first program's PMT PID. -/
def demoKeep : Finset Nat := {0x1f0}

/-- Concrete demonstration of C1 on `demoPatBytes` with keep-set
`{0x1f0}`: the entry (0x0102, 0x02f0) is dropped, the network and
first-program entries survive (n = 2), and all the rewrite guarantees
hold. -/
theorem c1_pat_rewrite_witness :
    (dumpPat demoPatBytes demoKeep).length = 188 ∧
    (∀ i, i < 5 + 8 → i ≠ 5 + 1 → i ≠ 5 + 2 →
      (dumpPat demoPatBytes demoKeep).getD i 0 = demoPatBytes.getD i 0) ∧
    sectionLength ((dumpPat demoPatBytes demoKeep).drop 5) = 5 + 4 * 2 + 4 ∧
    (dumpPat demoPatBytes demoKeep).getD (5 + 1) 0 &&& 0xf0 =
      demoPatBytes.getD (5 + 1) 0 &&& 0xf0 ∧
    ((dumpPat demoPatBytes demoKeep).drop (5 + 8)).take (4 * 2) =
      ((patEntries demoMap).filter fun e => decide (keepEntryP demoKeep e)).flatten ∧
    ((dumpPat demoPatBytes demoKeep).drop (5 + 8 + 4 * 2)).take 4 =
      crcBeBytes (crc32 (((dumpPat demoPatBytes demoKeep).drop 5).take
        (3 + (5 + 4 * 2 + 4) - 4))) ∧
    (dumpPat demoPatBytes demoKeep).drop (5 + 8 + 4 * 2 + 4) =
      List.replicate (188 - (5 + 8 + 4 * 2 + 4)) 0 :=
  c1_pat_rewrite demoPatBytes demoKeep 5 21 2 demoMap (dumpPat demoPatBytes demoKeep)
    (by decide) (by decide) (by decide) (by decide) rfl (by decide) (by decide)
    (by decide) (by decide) (by decide)

/-! ## Clean: keep-set derivation (src/cmd/clean.rs) -/

/-- Loop of `find_pids_from_pat` over the parsed PAT's
`program_association` pairs `(program_number, pid)`: a zero program
number records the network PID (last writer wins), every other pair's
PID joins the PMT PID set.  The function takes no service index — all
non-network programs contribute. -/
def findPidsFromPat (assoc : List (Nat × Nat)) : Option Nat × Finset Nat :=
  assoc.foldl
    (fun acc pr =>
      if pr.1 = 0 then (some pr.2, acc.2) else (acc.1, insert pr.2 acc.2))
    (none, ∅)

theorem findPidsFromPat_snd_aux (assoc : List (Nat × Nat)) :
    ∀ net s, (assoc.foldl
      (fun acc pr =>
        if pr.1 = 0 then (some pr.2, acc.2) else (acc.1, insert pr.2 acc.2))
      (net, s)).2 =
      s ∪ ((assoc.filter fun pr => decide (pr.1 ≠ 0)).map Prod.snd).toFinset := by
  induction assoc with
  | nil => intro net s; simp
  | cons pr rest ih =>
    intro net s
    rw [List.foldl_cons]
    by_cases h : pr.1 = 0
    · rw [if_pos h, List.filter_cons_of_neg (by simp [h])]
      exact ih _ _
    · rw [if_neg h, List.filter_cons_of_pos (by simp [h]), ih]
      ext x
      simp [or_assoc]

/-- C4 (amended): the clean operation's PAT scan derives the PMT PID
set from all entries with a nonzero program number; there is no
service-index selection. -/
theorem c4_pat_pmt_pids (assoc : List (Nat × Nat)) :
    (findPidsFromPat assoc).2 =
      ((assoc.filter fun pr => decide (pr.1 ≠ 0)).map Prod.snd).toFinset := by
  rw [findPidsFromPat, findPidsFromPat_snd_aux]
  simp

/-- C4 counterexample: for a PAT listing two non-network programs,
both PMT PIDs enter the keep-set derivation — contradicting the claim
that an optional service index restricts it to the one program
selected by position (the `run`/`find_keep_pids` signatures take no
such parameter). -/
theorem c4_counterexample :
    (findPidsFromPat [(0x101, 0x1f0), (0x102, 0x2f0)]).2 = {0x1f0, 0x2f0} ∧
    (findPidsFromPat [(0x101, 0x1f0), (0x102, 0x2f0)]).2.card = 2 := by
  constructor
  · decide
  · decide

/-- Stream-type constant for H.264 (src/psi/pmt.rs). -/
def STREAM_TYPE_H264 : Nat := 0x1b

/-- Stream-info entry of a PMT as used by the clean operation
(`stream_type` and `elementary_pid`; descriptors are not consulted by
`find_keep_pids_from_pmt`). -/
structure StreamInfo where
  stream_type : Nat
  elementary_pid : Nat
deriving DecidableEq

/-- Fields of `TSProgramMapSection` consulted by
`find_keep_pids_from_pmt`. -/
structure TSProgramMapSection where
  pcr_pid : Nat
  stream_info : List StreamInfo
deriving DecidableEq

/-- Loop of `find_keep_pids_from_pmt` over the stream infos: an H.264
stream type aborts with the empty set, otherwise each elementary PID
is inserted. -/
def pmtKeepLoop (acc : Finset Nat) : List StreamInfo → Finset Nat
  | [] => acc
  | si :: rest =>
    if si.stream_type = STREAM_TYPE_H264 then ∅
    else pmtKeepLoop (insert si.elementary_pid acc) rest

/-- Keep-set contributed by one PMT (`find_keep_pids_from_pmt`): the
PMT's own PID and the PCR PID are inserted first, then the
elementary PIDs, unless an H.264 stream makes the whole program
contribute nothing. -/
def pmtKeepPids (pmtPid : Nat) (pms : TSProgramMapSection) : Finset Nat :=
  pmtKeepLoop (insert pms.pcr_pid {pmtPid}) pms.stream_info

theorem pmtKeepLoop_eq (l : List StreamInfo) :
    ∀ acc, pmtKeepLoop acc l =
      if ∃ si ∈ l, si.stream_type = STREAM_TYPE_H264 then ∅
      else acc ∪ (l.map StreamInfo.elementary_pid).toFinset := by
  induction l with
  | nil => intro acc; simp [pmtKeepLoop]
  | cons si rest ih =>
    intro acc
    rw [pmtKeepLoop]
    by_cases h : si.stream_type = STREAM_TYPE_H264
    · rw [if_pos h, if_pos ⟨si, List.mem_cons_self si rest, h⟩]
    · rw [if_neg h, ih]
      by_cases h2 : ∃ si' ∈ rest, si'.stream_type = STREAM_TYPE_H264
      · have hex : ∃ s ∈ si :: rest, s.stream_type = STREAM_TYPE_H264 := by
          obtain ⟨si', hm, ht⟩ := h2
          exact ⟨si', List.mem_cons_of_mem si hm, ht⟩
        rw [if_pos h2, if_pos hex]
      · have hex : ¬∃ s ∈ si :: rest, s.stream_type = STREAM_TYPE_H264 := by
          rintro ⟨s, hm, ht⟩
          rcases List.mem_cons.1 hm with rfl | hm'
          · exact h ht
          · exact h2 ⟨s, hm', ht⟩
        rw [if_neg h2, if_neg hex]
        ext x
        simp

/-- C5: for every PMT processed by the clean operation, the derived
keep-set is the PMT's own PID, its `pcr_pid` and every
`elementary_pid` of the stream-info loop — unless some stream has
stream type 0x1b (H.264), in which case the program contributes the
empty set (not even its own PMT PID or PCR PID). -/
theorem c5_pmt_keep_pids (pmtPid : Nat) (pms : TSProgramMapSection) :
    pmtKeepPids pmtPid pms =
      if ∃ si ∈ pms.stream_info, si.stream_type = STREAM_TYPE_H264 then ∅
      else insert pms.pcr_pid {pmtPid} ∪
        (pms.stream_info.map StreamInfo.elementary_pid).toFinset := by
  rw [pmtKeepPids, pmtKeepLoop_eq]

/-! ## Caption data-unit dispatch (src/cmd/caption.rs, src/arib/caption.rs) -/

/-- Data-unit parameter of an ARIB caption data unit
(enum `DataUnitParameter`; the byte values are 0x20 Text, 0x28
Geometric, 0x2c AdditionalSound, 0x30 DRCS1, 0x31 DRCS2, 0x34
ColorMap, 0x35 BitMap). -/
inductive DataUnitParameter where
  | text
  | geometric
  | additionalSound
  | drcs1
  | drcs2
  | colorMap
  | bitMap
deriving DecidableEq

/-- Caption data unit (struct `DataUnit`). -/
structure DataUnit where
  unit_separator : Nat
  data_unit_parameter : DataUnitParameter
  data_unit_data : List Nat
deriving DecidableEq

/-- Model of `dump_caption`'s loop over the data units of a parsed
data group.  The ARIB text decoding of a `Text` unit and the DRCS
processing of a `DRCS1` unit are taken as parameters (`textDecode`
receives the processor state because the decoder is loaded with the
processor's code map); both branches propagate their errors with `?`
or `return Err(..)`, ending the whole caption dump.  Every other
parameter value is only debug-logged and the loop continues.  The
returned list collects the captions printed for nonempty decoded
text. -/
def dumpCaption {ε σ : Type} (textDecode : σ → List Nat → Except ε (List Char))
    (drcsProcess : σ → List Nat → Except ε σ) (st : σ) :
    List DataUnit → Except ε (σ × List (List Char))
  | [] => .ok (st, [])
  | du :: rest =>
    match du.data_unit_parameter with
    | .text =>
      match textDecode st du.data_unit_data with
      | .error e => .error e
      | .ok s =>
        match dumpCaption textDecode drcsProcess st rest with
        | .error e => .error e
        | .ok (st', caps) => .ok (st', if s = [] then caps else s :: caps)
    | .drcs1 =>
      match drcsProcess st du.data_unit_data with
      | .error e => .error e
      | .ok st' => dumpCaption textDecode drcsProcess st' rest
    | _ => dumpCaption textDecode drcsProcess st rest

/-- C9: during caption processing, every data unit whose parameter is
neither Text (0x20) nor DRCS1 (0x30) is only debug-logged and skipped;
a list of such units can never fail the caption dump or touch the
DRCS processor state, for any behavior of the text decoder and DRCS
processor. -/
theorem c9_other_units_skipped {ε σ : Type}
    (textDecode : σ → List Nat → Except ε (List Char))
    (drcsProcess : σ → List Nat → Except ε σ) (st : σ) (dus : List DataUnit)
    (h : ∀ du ∈ dus, du.data_unit_parameter ≠ .text ∧ du.data_unit_parameter ≠ .drcs1) :
    dumpCaption textDecode drcsProcess st dus = .ok (st, []) := by
  induction dus with
  | nil => rfl
  | cons du rest ih =>
    obtain ⟨ht, hd⟩ := h du (List.mem_cons_self du rest)
    have hrest := ih fun du' h' => h du' (List.mem_cons_of_mem du h')
    rw [dumpCaption]
    cases hp : du.data_unit_parameter with
    | text => exact absurd hp ht
    | drcs1 => exact absurd hp hd
    | geometric => exact hrest
    | additionalSound => exact hrest
    | drcs2 => exact hrest
    | colorMap => exact hrest
    | bitMap => exact hrest

/-- Concrete demonstration of C9: two non-Text, non-DRCS1 units are
skipped even when both the text decoder and the DRCS processor would
fail on any input. -/
theorem c9_other_units_skipped_witness :
    dumpCaption (fun (_ : Unit) (_ : List Nat) => (Except.error () : Except Unit (List Char)))
      (fun (_ : Unit) (_ : List Nat) => (Except.error () : Except Unit Unit)) ()
      [⟨0, .geometric, [1, 2]⟩, ⟨0, .bitMap, []⟩] = .ok ((), []) :=
  c9_other_units_skipped _ _ ()
    [⟨0, .geometric, [1, 2]⟩, ⟨0, .bitMap, []⟩] (by decide)

/-! ## Jitter (src/cmd/jitter.rs) -/

/-- Jitter value printed by the jitter operation, as a rational: the
source computes `f64::from((vpts - apts) as u32) / 90000f64`, i.e.
the u64 difference truncated to u32 and divided by 90000 (the
floating division by 90000 is modelled as exact rational division;
u64 subtraction wraps). -/
def jitterSeconds (apts vpts : Nat) : ℚ :=
  (((vpts + 2 ^ 64 - apts) % 2 ^ 64) % 2 ^ 32 : Nat) / 90000

/-- C7 (amended): the jitter operation outputs
`(video_pts − audio_pts) / 90000` whenever the difference is
nonnegative and fits in 32 bits — in particular audio PTS 90000 with
first I-picture PTS 180000 yields exactly 1 — but the `as u32`
truncation makes the output differ from `(video_pts − audio_pts) /
90000` for differences of 2^32 and beyond. -/
theorem c7_jitter (apts vpts : Nat) (h1 : apts ≤ vpts) (h2 : vpts - apts < 2 ^ 32) :
    jitterSeconds apts vpts = ((vpts : ℚ) - (apts : ℚ)) / 90000 ∧
    jitterSeconds 90000 180000 = 1 := by
  constructor
  · have hnum : ((vpts + 2 ^ 64 - apts) % 2 ^ 64) % 2 ^ 32 = vpts - apts := by
      omega
    rw [jitterSeconds, hnum, Nat.cast_sub h1]
  · norm_num [jitterSeconds]

/-- Concrete demonstration of C7's amended statement at the spec's
example: audio PTS 90000, video PTS 180000 gives exactly one
second. -/
theorem c7_jitter_witness :
    jitterSeconds 90000 180000 = ((180000 : ℚ) - (90000 : ℚ)) / 90000 ∧
    jitterSeconds 90000 180000 = 1 :=
  c7_jitter 90000 180000 (by norm_num) (by norm_num)

/-- C7 counterexample: with audio PTS 0 and video PTS 2^32 (a valid
33-bit PTS), the `as u32` truncation yields jitter 0, not
2^32 / 90000 as the claim's formula demands. -/
theorem c7_counterexample :
    jitterSeconds 0 (2 ^ 32) = 0 ∧
    ((2 ^ 32 : ℚ) - ((0 : Nat) : ℚ)) / 90000 ≠ jitterSeconds 0 (2 ^ 32) := by
  constructor
  · norm_num [jitterSeconds]
  · norm_num [jitterSeconds]

/-! ## EIT start time (src/psi/eit.rs) -/

/-- Gregorian date of a Julian day number, mirroring
`Event::jd_to_gregorian` (Richards' algorithm with y=4716, j=1401,
m=2, n=12, r=4, p=1461, v=3, u=5, s=153, w=2, B=274277, C=38). -/
def jdToGregorian (jd : Nat) : Nat × Nat × Nat :=
  let f := jd + 1401 + (4 * jd + 274277) / 146097 * 3 / 4 - 38
  let e := 4 * f + 3
  let g := (e % 1461) / 4
  let h := 5 * g + 2
  let day := (h % 153) / 5 + 1
  let month := (h / 153 + 2) % 12 + 1
  let year := e / 1461 - 4716 + (12 + 2 - month) / 12
  (year, month, day)

/-- Two-digit BCD decoding of one byte,
`((b >> 4) * 10) + (b & 0xf)` as in `Event::parse_hms`. -/
def bcdByte (b : Nat) : Nat :=
  (b >>> 4) * 10 + (b &&& 0xf)

/-- Model of `Event::parse_hms`: three all-ones bytes mean
"unspecified", otherwise each byte is two BCD digits. -/
def parseHms (bytes : List Nat) : Option (Nat × Nat × Nat) :=
  if bytes.getD 0 0 = 0xff ∧ bytes.getD 1 0 = 0xff ∧ bytes.getD 2 0 = 0xff then none
  else some (bcdByte (bytes.getD 0 0), bcdByte (bytes.getD 1 0), bcdByte (bytes.getD 2 0))

/-- Decoded EIT start time: a civil date and time with a fixed UTC
offset in seconds (`FixedOffset::east(9 * 3600)` in the source). -/
structure JstDateTime where
  year : Nat
  month : Nat
  day : Nat
  hour : Nat
  minute : Nat
  second : Nat
  utcOffsetSeconds : Nat
deriving DecidableEq

/-- Result of `Event::parse_datetime`: `undefined` is `Ok(None)` (the
all-ones field), `ok` is `Ok(Some(..))`, and `panic` models the
`.unwrap()` on an all-ones time part.  The chrono date-time
constructor `FixedOffset::east(9*3600).ymd(..).and_hms(..)` is an
external crate and is modelled as the plain record constructor. -/
inductive DatetimeResult where
  | panic
  | undefined
  | ok (dt : JstDateTime)
deriving DecidableEq

/-- Model of `Event::parse_datetime`: five 0xff bytes decode to
`undefined`; otherwise the first two bytes are the 16-bit MJD, the
Julian day number is `mjd + 2400000 + 1`, the date comes from
`jd_to_gregorian` and the time from the BCD bytes, in fixed offset
UTC+9. -/
def parseDatetime (bytes : List Nat) : DatetimeResult :=
  if (bytes.take 5).all (fun x => x == 0xff) then .undefined
  else
    let mjd := (bytes.getD 0 0 <<< 8) ||| bytes.getD 1 0
    let t := jdToGregorian (mjd + 2400000 + 1)
    match parseHms (bytes.drop 2) with
    | none => .panic
    | some (hh, mm, ss) => .ok ⟨t.1, t.2.1, t.2.2, hh, mm, ss, 9 * 3600⟩

/-- Standard Gregorian-date-to-Julian-day-number conversion, used to
state the round-trip property of the claim (it has no counterpart in
the source). -/
def gregorianToJdn (y mo d : Nat) : Nat :=
  let a := (14 - mo) / 12
  let y2 := y + 4800 - a
  let m2 := mo + 12 * a - 3
  d + (153 * m2 + 2) / 5 + 365 * y2 + y2 / 4 - y2 / 100 + y2 / 400 - 32045

/-- Modified Julian date of a Gregorian date (JDN minus 2400001). -/
def gregorianToMjd (t : Nat × Nat × Nat) : Nat :=
  gregorianToJdn t.1 t.2.1 t.2.2 - (2400000 + 1)

set_option maxHeartbeats 6400000 in
/-- `jd_to_gregorian` followed by the standard Gregorian-to-JDN
formula is the identity on every Julian day number reachable from a
16-bit MJD.  The proof splits on the value of the Gregorian-correction
quotient `(4 jd + 274277) / 146097` (67, 68 or 69 on this range), pins
the century divisions, which are constant on each piece except at the
single day `jd = 2451604`, and finishes each of the twelve month cases
by linear arithmetic. -/
theorem jd_roundtrip_core (jd : Nat) (h1 : 2400001 ≤ jd) (h2 : jd ≤ 2465537) :
    gregorianToJdn (jdToGregorian jd).1 (jdToGregorian jd).2.1 (jdToGregorian jd).2.2 = jd := by
  simp only [jdToGregorian, gregorianToJdn]
  rcases Nat.lt_or_ge jd 2415080 with hb | hb
  · have hq : (4 * jd + 274277) / 146097 = 67 := by omega
    simp only [hq]
    have hc100 : ((4 * (jd + 1401 + 67 * 3 / 4 - 38) + 3) / 1461 - 4716 +
        (12 + 2 - (((5 * ((4 * (jd + 1401 + 67 * 3 / 4 - 38) + 3) % 1461 / 4) + 2) / 153 + 2) % 12 + 1)) / 12 +
        4800 -
        (14 - (((5 * ((4 * (jd + 1401 + 67 * 3 / 4 - 38) + 3) % 1461 / 4) + 2) / 153 + 2) % 12 + 1)) / 12) / 100
        = 66 := by
      omega
    have hc400 : ((4 * (jd + 1401 + 67 * 3 / 4 - 38) + 3) / 1461 - 4716 +
        (12 + 2 - (((5 * ((4 * (jd + 1401 + 67 * 3 / 4 - 38) + 3) % 1461 / 4) + 2) / 153 + 2) % 12 + 1)) / 12 +
        4800 -
        (14 - (((5 * ((4 * (jd + 1401 + 67 * 3 / 4 - 38) + 3) % 1461 / 4) + 2) / 153 + 2) % 12 + 1)) / 12) / 400
        = 16 := by
      omega
    have h12 : (5 * ((4 * (jd + 1401 + 67 * 3 / 4 - 38) + 3) % 1461 / 4) + 2) / 153 < 12 := by
      omega
    obtain ⟨t, ht⟩ : ∃ t, (5 * ((4 * (jd + 1401 + 67 * 3 / 4 - 38) + 3) % 1461 / 4) + 2) / 153 = t :=
      ⟨_, rfl⟩
    rw [ht] at h12 hc100 hc400 ⊢
    interval_cases t <;> omega
  rcases Nat.lt_or_ge jd 2451604 with hb2 | hb2
  · have hq : (4 * jd + 274277) / 146097 = 68 := by omega
    simp only [hq]
    have hc100 : ((4 * (jd + 1401 + 68 * 3 / 4 - 38) + 3) / 1461 - 4716 +
        (12 + 2 - (((5 * ((4 * (jd + 1401 + 68 * 3 / 4 - 38) + 3) % 1461 / 4) + 2) / 153 + 2) % 12 + 1)) / 12 +
        4800 -
        (14 - (((5 * ((4 * (jd + 1401 + 68 * 3 / 4 - 38) + 3) % 1461 / 4) + 2) / 153 + 2) % 12 + 1)) / 12) / 100
        = 67 := by
      omega
    have hc400 : ((4 * (jd + 1401 + 68 * 3 / 4 - 38) + 3) / 1461 - 4716 +
        (12 + 2 - (((5 * ((4 * (jd + 1401 + 68 * 3 / 4 - 38) + 3) % 1461 / 4) + 2) / 153 + 2) % 12 + 1)) / 12 +
        4800 -
        (14 - (((5 * ((4 * (jd + 1401 + 68 * 3 / 4 - 38) + 3) % 1461 / 4) + 2) / 153 + 2) % 12 + 1)) / 12) / 400
        = 16 := by
      omega
    have h12 : (5 * ((4 * (jd + 1401 + 68 * 3 / 4 - 38) + 3) % 1461 / 4) + 2) / 153 < 12 := by
      omega
    obtain ⟨t, ht⟩ : ∃ t, (5 * ((4 * (jd + 1401 + 68 * 3 / 4 - 38) + 3) % 1461 / 4) + 2) / 153 = t :=
      ⟨_, rfl⟩
    rw [ht] at h12 hc100 hc400 ⊢
    interval_cases t <;> omega
  rcases Nat.lt_or_ge jd 2451605 with hb3 | hb3
  · have hj : jd = 2451604 := by omega
    subst hj
    omega
  · have hq : (4 * jd + 274277) / 146097 = 69 := by omega
    simp only [hq]
    have hc100 : ((4 * (jd + 1401 + 69 * 3 / 4 - 38) + 3) / 1461 - 4716 +
        (12 + 2 - (((5 * ((4 * (jd + 1401 + 69 * 3 / 4 - 38) + 3) % 1461 / 4) + 2) / 153 + 2) % 12 + 1)) / 12 +
        4800 -
        (14 - (((5 * ((4 * (jd + 1401 + 69 * 3 / 4 - 38) + 3) % 1461 / 4) + 2) / 153 + 2) % 12 + 1)) / 12) / 100
        = 68 := by
      omega
    have hc400 : ((4 * (jd + 1401 + 69 * 3 / 4 - 38) + 3) / 1461 - 4716 +
        (12 + 2 - (((5 * ((4 * (jd + 1401 + 69 * 3 / 4 - 38) + 3) % 1461 / 4) + 2) / 153 + 2) % 12 + 1)) / 12 +
        4800 -
        (14 - (((5 * ((4 * (jd + 1401 + 69 * 3 / 4 - 38) + 3) % 1461 / 4) + 2) / 153 + 2) % 12 + 1)) / 12) / 400
        = 17 := by
      omega
    have h12 : (5 * ((4 * (jd + 1401 + 69 * 3 / 4 - 38) + 3) % 1461 / 4) + 2) / 153 < 12 := by
      omega
    obtain ⟨t, ht⟩ : ∃ t, (5 * ((4 * (jd + 1401 + 69 * 3 / 4 - 38) + 3) % 1461 / 4) + 2) / 153 = t :=
      ⟨_, rfl⟩
    rw [ht] at h12 hc100 hc400 ⊢
    interval_cases t <;> omega

theorem mjd_roundtrip (m : Nat) (hm : m < 65536) :
    gregorianToMjd (jdToGregorian (m + 2400000 + 1)) = m := by
  have h := jd_roundtrip_core (m + 2400000 + 1) (by omega) (by omega)
  rw [gregorianToMjd]
  omega

/-- C6: an EIT 5-byte start-time field that is not all 0xff decodes
(for in-range BCD time digits) to the Gregorian date obtained from
the 16-bit MJD by the standard Julian-day algorithm, combined with
the BCD HH:MM:SS, at fixed offset UTC+9; the conversion
MJD → Gregorian → MJD is the identity on every 16-bit MJD; the
all-ones field decodes to "undefined". -/
theorem c6_eit_start_time :
    (∀ bytes : List Nat, (bytes.take 5).all (fun x => x == 0xff) = true →
      parseDatetime bytes = .undefined) ∧
    (∀ b0 b1 b2 b3 b4 : Nat, b0 < 256 → b1 < 256 →
      bcdByte b2 ≤ 23 → bcdByte b3 ≤ 59 → bcdByte b4 ≤ 59 →
      parseDatetime [b0, b1, b2, b3, b4] =
        .ok ⟨(jdToGregorian (((b0 <<< 8) ||| b1) + 2400000 + 1)).1,
          (jdToGregorian (((b0 <<< 8) ||| b1) + 2400000 + 1)).2.1,
          (jdToGregorian (((b0 <<< 8) ||| b1) + 2400000 + 1)).2.2,
          bcdByte b2, bcdByte b3, bcdByte b4, 9 * 3600⟩) ∧
    (∀ m : Nat, m < 65536 → gregorianToMjd (jdToGregorian (m + 2400000 + 1)) = m) := by
  refine ⟨?_, ?_, fun m hm => mjd_roundtrip m hm⟩
  · intro bytes h
    rw [parseDatetime, if_pos h]
  · intro b0 b1 b2 b3 b4 hb0 hb1 hh hm hs
    have hb2 : b2 ≠ 0xff := by
      intro he
      rw [he] at hh
      exact absurd hh (by decide)
    have hmjd : ((b0 <<< 8) ||| b1) < 65536 := by
      have h1 : b0 <<< 8 < 65536 := by rw [Nat.shiftLeft_eq]; omega
      exact Nat.or_lt_two_pow (n := 16) h1 (by omega)
    have hall : (([b0, b1, b2, b3, b4].take 5).all (fun x => x == 0xff)) = false := by
      have : (b2 == 0xff) = false := beq_eq_false_iff_ne.2 hb2
      simp [this]
    have hhms : parseHms ([b0, b1, b2, b3, b4].drop 2) =
        some (bcdByte b2, bcdByte b3, bcdByte b4) := by
      rw [show ([b0, b1, b2, b3, b4] : List Nat).drop 2 = [b2, b3, b4] from rfl,
        parseHms, if_neg (by simp [hb2])]
      rfl
    rw [parseDatetime, if_neg (by rw [hall]; simp)]
    rw [show ([b0, b1, b2, b3, b4] : List Nat).getD 0 0 = b0 from rfl,
      show ([b0, b1, b2, b3, b4] : List Nat).getD 1 0 = b1 from rfl]
    rw [hhms]

/-- Concrete demonstration of C6: MJD 51544 (bytes 0xc9 0x58) with
BCD time 12:34:56 decodes to 2000-01-01 12:34:56 +09:00, the
round-trip at 51544 is the identity, and the all-ones field is
undefined. -/
theorem c6_eit_start_time_witness :
    parseDatetime [0xc9, 0x58, 0x12, 0x34, 0x56] =
      .ok ⟨(jdToGregorian (((0xc9 <<< 8) ||| 0x58) + 2400000 + 1)).1,
        (jdToGregorian (((0xc9 <<< 8) ||| 0x58) + 2400000 + 1)).2.1,
        (jdToGregorian (((0xc9 <<< 8) ||| 0x58) + 2400000 + 1)).2.2,
        bcdByte 0x12, bcdByte 0x34, bcdByte 0x56, 9 * 3600⟩ ∧
    gregorianToMjd (jdToGregorian (51544 + 2400000 + 1)) = 51544 ∧
    parseDatetime (List.replicate 5 0xff) = .undefined :=
  ⟨c6_eit_start_time.2.1 0xc9 0x58 0x12 0x34 0x56 (by decide) (by decide) (by decide)
      (by decide) (by decide),
    c6_eit_start_time.2.2 51544 (by decide),
    c6_eit_start_time.1 (List.replicate 5 0xff) (by decide)⟩

/-! ## ARIB control sequences (src/arib/string.rs)

Byte constants of the source: LS0 = 0x0f, LS1 = 0x0e, ESC = 0x1b,
SS2 = 0x19, SS3 = 0x1d; escape selectors LS2 = 0x6e, LS3 = 0x6f,
LS1R = 0x7e, LS2R = 0x7d, LS3R = 0x7c; C0 controls NUL 0x00, BEL
0x07, APB 0x08, APF 0x09, APD 0x0a, APU 0x0b, CS 0x0c, APR 0x0d,
PAPF 0x16, CAN 0x18, APS 0x1c, RS 0x1e, US 0x1f, SP 0x20, DEL 0x7f;
C1 controls BKF..WHF 0x80..0x87, SSZ/MSZ/NSZ 0x88..0x8a, SZX 0x8b,
COL 0x90, FLC 0x91, CDC 0x92, POL 0x93, WMM 0x94, MACRO 0x95, HLC
0x97, RPC 0x98, SPL 0x99, STL 0x9a, CSI 0x9b, TIME 0x9d. -/

/-- Graphic-set designation (enum `Charset`); `macroCs` stands for
the source's `Macro` variant. -/
inductive Charset where
  | kanji
  | alnum
  | hiragana
  | katakana
  | mosaicA
  | mosaicB
  | mosaicC
  | mosaicD
  | proportionalAlnum
  | proportionalHiragana
  | proportionalKatakana
  | jisx0201
  | jisGokanKanji1
  | jisGokanKanji2
  | symbol
  | drcs (n : Nat)
  | macroCs
deriving DecidableEq

/-- Decoder state of `AribDecoder` (the DRCS code map, which the
control handler never touches, is omitted): the optional single-shift
register index, the GL and GR invocation indices, and the four
graphic-set registers G0..G3. -/
structure AribDecoder where
  single : Option Nat
  gl : Nat
  gr : Nat
  g0 : Charset
  g1 : Charset
  g2 : Charset
  g3 : Charset
deriving DecidableEq

/-- Register write `self.g[pos] = code`.  The indices reaching it are
always 0..3 (`s1 - 0x28` with s1 in 0x28..0x2b, or `s2 - 0x28` with
s2 in 0x29..0x2b), so the out-of-range fallback is unreachable. -/
def setG (d : AribDecoder) (i : Nat) (cs : Charset) : AribDecoder :=
  match i with
  | 0 => { d with g0 := cs }
  | 1 => { d with g1 := cs }
  | 2 => { d with g2 := cs }
  | 3 => { d with g3 := cs }
  | _ => d

/-- Caption initialization (`AribDecoder::with_caption_initialization`):
G0 Kanji, G1 Alnum, G2 Hiragana, G3 Macro, GL = G0, GR = G2. -/
def captionInit : AribDecoder :=
  ⟨none, 0, 2, .kanji, .alnum, .hiragana, .macroCs⟩

/-- Errors of the ARIB string decoder (enum `Error`). -/
inductive AribError where
  | unknownCodepoint (code : Nat) (charset : String)
  | unimplementedCharset (charset : String)
  | unimplementedControl (b : Nat)
  | malformedShortBytes
deriving DecidableEq

/-- Single-byte G-set selection from a termination character
(`g_set_from_termination`); `none` models the `unreachable!()` panic
on every other byte. -/
def gSetFromTermination (f : Nat) : Option Charset :=
  match f with
  | 0x42 => some .kanji
  | 0x4a => some .alnum
  | 0x30 => some .hiragana
  | 0x31 => some .katakana
  | 0x32 => some .mosaicA
  | 0x33 => some .mosaicB
  | 0x34 => some .mosaicC
  | 0x35 => some .mosaicD
  | 0x36 => some .proportionalAlnum
  | 0x37 => some .proportionalHiragana
  | 0x38 => some .proportionalKatakana
  | 0x49 => some .jisx0201
  | 0x39 => some .jisGokanKanji1
  | 0x3a => some .jisGokanKanji2
  | 0x3b => some .symbol
  | _ => none

/-- DRCS G-set selection from a termination character
(`drcs_from_termination`); `none` models the `unreachable!()`
panic. -/
def drcsFromTermination (f : Nat) : Option Charset :=
  if 0x40 ≤ f ∧ f ≤ 0x4f then some (.drcs (f - 0x40))
  else if f = 0x70 then some .macroCs
  else none

/-- Outcome of `AribDecoder::control` on a finite byte list: the
updated decoder, accumulated output and unconsumed input, or an
error, or a panic (`unreachable!()`). -/
inductive CtrlResult where
  | ok (d : AribDecoder) (out : List Char) (rest : List Nat)
  | err (e : AribError)
  | panic
deriving DecidableEq

/-- Parameter loop of the CSI control (and of TIME with selector
0x29): consume bytes until one at or above 0x40 is found; running
out of input is a `MalformedShortBytes` error. -/
def csiLoop (d : AribDecoder) (out : List Char) : List Nat → CtrlResult
  | [] => .err .malformedShortBytes
  | c :: rest => if 0x40 ≤ c then .ok d out rest else csiLoop d out rest

/-- Model of `AribDecoder::control`, the control-byte handler: every
`next!()` on exhausted input is `MalformedShortBytes`; the escape
selectors change GL/GR or designate G-sets (an unrecognized selector
or termination character hits `unreachable!()`, modelled as
`panic`); MACRO (0x95), RPC (0x98), SPL (0x99) and STL (0x9a) return
`UnimplementedControl`; the remaining control bytes consume their
parameters and at most push whitespace or control characters; an
unrecognized control byte is only trace-logged and ignored. -/
def control (d : AribDecoder) (out : List Char) (input : List Nat) : CtrlResult :=
  match input with
  | [] => .err .malformedShortBytes
  | s0 :: rest =>
    if s0 = 0x0f then .ok { d with gl := 0 } out rest        -- LS0
    else if s0 = 0x0e then .ok { d with gl := 1 } out rest   -- LS1
    else if s0 = 0x1b then                                   -- ESC
      match rest with
      | [] => .err .malformedShortBytes
      | s1 :: rest1 =>
        if s1 = 0x6e then .ok { d with gl := 2 } out rest1   -- LS2
        else if s1 = 0x6f then .ok { d with gl := 3 } out rest1  -- LS3
        else if s1 = 0x7e then .ok { d with gr := 1 } out rest1  -- LS1R
        else if s1 = 0x7d then .ok { d with gr := 2 } out rest1  -- LS2R
        else if s1 = 0x7c then .ok { d with gr := 3 } out rest1  -- LS3R
        else if 0x28 ≤ s1 ∧ s1 ≤ 0x2b then
          match rest1 with
          | [] => .err .malformedShortBytes
          | s2 :: rest2 =>
            if s2 = 0x20 then
              match rest2 with
              | [] => .err .malformedShortBytes
              | s3 :: rest3 =>
                match drcsFromTermination s3 with
                | none => .panic
                | some cs => .ok (setG d (s1 - 0x28) cs) out rest3
            else
              match gSetFromTermination s2 with
              | none => .panic
              | some cs => .ok (setG d (s1 - 0x28) cs) out rest2
        else if s1 = 0x24 then
          match rest1 with
          | [] => .err .malformedShortBytes
          | s2 :: rest2 =>
            if s2 = 0x28 then
              match rest2 with
              | [] => .err .malformedShortBytes
              | s3 :: rest3 =>
                if s3 ≠ 0x20 then .panic
                else
                  match rest3 with
                  | [] => .err .malformedShortBytes
                  | s4 :: rest4 =>
                    match drcsFromTermination s4 with
                    | none => .panic
                    | some cs => .ok (setG d 0 cs) out rest4
            else if 0x29 ≤ s2 ∧ s2 ≤ 0x2b then
              match rest2 with
              | [] => .err .malformedShortBytes
              | s3 :: rest3 =>
                if s3 = 0x20 then
                  match rest3 with
                  | [] => .err .malformedShortBytes
                  | s4 :: rest4 =>
                    match drcsFromTermination s4 with
                    | none => .panic
                    | some cs => .ok (setG d (s2 - 0x28) cs) out rest4
                else
                  match gSetFromTermination s3 with
                  | none => .panic
                  | some cs => .ok (setG d (s2 - 0x28) cs) out rest3
            else
              match gSetFromTermination s2 with
              | none => .panic
              | some cs => .ok (setG d 0 cs) out rest2
        else .panic
    else if s0 = 0x19 then .ok { d with single := some 2 } out rest  -- SS2
    else if s0 = 0x1d then .ok { d with single := some 3 } out rest  -- SS3
    else if s0 = 0x00 then .ok d out rest                            -- NUL
    else if s0 = 0x07 then .ok d (out ++ ['\x07']) rest              -- BEL
    else if s0 = 0x08 then .ok d (out ++ ['\x08']) rest              -- APB
    else if s0 = 0x09 then .ok d (out ++ ['\t']) rest                -- APF
    else if s0 = 0x0a then .ok d (out ++ ['\n']) rest                -- APD
    else if s0 = 0x0b then .ok d out rest                            -- APU
    else if s0 = 0x0d then .ok d (out ++ ['\r']) rest                -- APR
    else if s0 = 0x16 then                                           -- PAPF
      match rest with
      | [] => .err .malformedShortBytes
      | x :: rest1 => .ok d (out ++ List.replicate x '\t') rest1
    else if s0 = 0x1c then                                           -- APS
      match rest with
      | [] => .err .malformedShortBytes
      | _ :: rest1 =>
        match rest1 with
        | [] => .err .malformedShortBytes
        | _ :: rest2 => .ok d (out ++ ['\n']) rest2
    else if s0 = 0x0c then .ok d out rest                            -- CS
    else if s0 = 0x18 then .ok d out rest                            -- CAN
    else if s0 = 0x1e then .ok d out rest                            -- RS
    else if s0 = 0x1f then .ok d out rest                            -- US
    else if s0 = 0x20 then .ok d (out ++ [' ']) rest                 -- SP
    else if s0 = 0x7f then .ok d out rest                            -- DEL
    else if 0x80 ≤ s0 ∧ s0 ≤ 0x87 then .ok d out rest                -- BKF..WHF
    else if s0 = 0x90 then                                           -- COL
      match rest with
      | [] => .err .malformedShortBytes
      | c :: rest1 =>
        if c = 0x20 then
          match rest1 with
          | [] => .err .malformedShortBytes
          | _ :: rest2 => .ok d out rest2
        else .ok d out rest1
    else if s0 = 0x93 then                                           -- POL
      match rest with
      | [] => .err .malformedShortBytes
      | _ :: rest1 => .ok d out rest1
    else if 0x88 ≤ s0 ∧ s0 ≤ 0x8a then .ok d out rest                -- SSZ/MSZ/NSZ
    else if s0 = 0x8b then                                           -- SZX
      match rest with
      | [] => .err .malformedShortBytes
      | _ :: rest1 => .ok d out rest1
    else if s0 = 0x91 then                                           -- FLC
      match rest with
      | [] => .err .malformedShortBytes
      | _ :: rest1 => .ok d out rest1
    else if s0 = 0x92 then                                           -- CDC
      match rest with
      | [] => .err .malformedShortBytes
      | c :: rest1 =>
        if c = 0x20 then
          match rest1 with
          | [] => .err .malformedShortBytes
          | _ :: rest2 => .ok d out rest2
        else .ok d out rest1
    else if s0 = 0x94 then                                           -- WMM
      match rest with
      | [] => .err .malformedShortBytes
      | _ :: rest1 => .ok d out rest1
    else if s0 = 0x9d then                                           -- TIME
      match rest with
      | [] => .err .malformedShortBytes
      | c :: rest1 =>
        if c = 0x20 ∨ c = 0x28 then
          match rest1 with
          | [] => .err .malformedShortBytes
          | _ :: rest2 => .ok d out rest2
        else if c = 0x29 then csiLoop d out rest1
        else .panic
    else if s0 = 0x95 then .err (.unimplementedControl s0)           -- MACRO
    else if s0 = 0x98 then .err (.unimplementedControl s0)           -- RPC
    else if s0 = 0x9a ∨ s0 = 0x99 then .err (.unimplementedControl s0)  -- STL | SPL
    else if s0 = 0x97 then                                           -- HLC
      match rest with
      | [] => .err .malformedShortBytes
      | _ :: rest1 => .ok d out rest1
    else if s0 = 0x9b then csiLoop d out rest                        -- CSI
    else if s0 = 0xa0 then .ok d out rest
    else if s0 = 0xff then .ok d out rest
    else .ok d out rest  -- trace-logged unknown control

/-- C8 (amended): the control handler returns `MalformedShortBytes`
exactly on premature end of input; an ESC followed by an unrecognized
selector, or a G-set designation with an unrecognized termination
character, panics via `unreachable!()` instead of returning an error;
the four controls MACRO (0x95), RPC (0x98), SPL (0x99) and STL
(0x9a) return `UnimplementedControl`; any other unknown control byte
(such as 0x96) is only debug-logged and succeeds without output. -/
theorem c8_control_errors :
    (∀ d out, control d out [] = .err .malformedShortBytes) ∧
    (∀ d out, control d out [0x1b] = .err .malformedShortBytes) ∧
    (∀ d out s1 rest, s1 ≠ 0x6e → s1 ≠ 0x6f → s1 ≠ 0x7e → s1 ≠ 0x7d → s1 ≠ 0x7c →
      ¬(0x28 ≤ s1 ∧ s1 ≤ 0x2b) → s1 ≠ 0x24 →
      control d out (0x1b :: s1 :: rest) = .panic) ∧
    (∀ d out f rest, f ≠ 0x20 → gSetFromTermination f = none →
      control d out (0x1b :: 0x28 :: f :: rest) = .panic) ∧
    (∀ d out rest c, c = 0x95 ∨ c = 0x98 ∨ c = 0x99 ∨ c = 0x9a →
      control d out (c :: rest) = .err (.unimplementedControl c)) ∧
    (∀ d out rest, control d out (0x96 :: rest) = .ok d out rest) := by
  refine ⟨fun d out => rfl, fun d out => rfl, ?_, ?_, ?_, fun d out rest => rfl⟩
  · intro d out s1 rest h1 h2 h3 h4 h5 h6 h7
    simp [control, h1, h2, h3, h4, h5, h6, h7]
  · intro d out f rest hne hnone
    simp [control, hne, hnone]
  · intro d out rest c hc
    rcases hc with rfl | rfl | rfl | rfl <;> rfl

/-- Concrete demonstration of C8's amended statement: the escape
sequences `ESC 0x00` and `ESC 0x28 0x21` panic, and MACRO (0x95)
reports `UnimplementedControl`. -/
theorem c8_control_errors_witness :
    control captionInit [] [0x1b, 0x00] = .panic ∧
    control captionInit [] [0x1b, 0x28, 0x21] = .panic ∧
    control captionInit [] [0x95] = .err (.unimplementedControl 0x95) :=
  ⟨c8_control_errors.2.2.1 captionInit [] 0x00 [] (by decide) (by decide) (by decide)
      (by decide) (by decide) (by decide) (by decide),
    c8_control_errors.2.2.2.1 captionInit [] 0x21 [] (by decide) rfl,
    c8_control_errors.2.2.2.2.1 captionInit [] [] 0x95 (Or.inl rfl)⟩

/-- C8 counterexample: the claim says an unknown control byte yields
`UnimplementedControl` and a malformed escape yields
`MalformedShortBytes`; in the code the unknown control 0x96 succeeds
silently (trace log only) and the malformed escape `ESC 0x21` panics
at an `unreachable!()`. -/
theorem c8_counterexample :
    control captionInit [] [0x96] = .ok captionInit [] [] ∧
    control captionInit [] [0x96] ≠ .err (.unimplementedControl 0x96) ∧
    control captionInit [] [0x1b, 0x21] = .panic ∧
    control captionInit [] [0x1b, 0x21] ≠ .err .malformedShortBytes := by
  refine ⟨rfl, by decide, rfl, by decide⟩

end Tstools
